import Mathlib

/-!
Shallow embedding of the multiplexing engine and the pub/sub exit protocol
of `src/aio.rs` (async redis connection core), together with proofs of the
behavioural properties claimed by the specification.

Modelling conventions:
* Decoded response values are an arbitrary type `α` (the engine never
  inspects them).
* Errors (`RedisError` in the source) are modelled by the inductive `RErr`;
  the synthesized `io::ErrorKind::BrokenPipe` error used when a completion
  slot is dropped is the constructor `RErr.brokenPipe`.
* A completion slot (`oneshot::Sender`) is identified by a natural-number
  slot id; writing the slot is modelled by emitting a `Resolution` event.
* The transport byte stream is modelled by lists of read/write outcomes
  consumed in order.
-/

/-- Error model for `RedisError`.  `brokenPipe` is the synthesized
`io::Error::from(io::ErrorKind::BrokenPipe)` error; `ioError` and
`decodeError` stand for transport write and decode failures (the payload
distinguishes concrete errors); `parseError` is a `from_redis_value`
conversion failure. -/
inductive RErr where
  | brokenPipe : RErr
  | ioError : Nat → RErr
  | decodeError : Nat → RErr
  | parseError : RErr
deriving DecidableEq, Repr

/-- `struct InFlight` of `aio.rs`: one entry of the engine's in-flight
queue.  The `oneshot::Sender` field `output` is modelled by a slot id. -/
structure InFlight (α : Type) where
  output : Nat
  response_count : Nat
  buffer : List α
deriving Repr

/-- The mutable state of `PipelineSink`: the FIFO in-flight queue and the
stored sink error set by `poll_ready`. -/
structure PipelineSinkState (α : Type) where
  in_flight : List (InFlight α)
  error : Option RErr
deriving Repr

/-- A write to a completion slot: which slot was resolved and with what. -/
structure Resolution (α : Type) where
  slot : Nat
  value : Except RErr (List α)
deriving Repr

/-- `PipelineSink::send_result`: process one item from the value stream.
If the in-flight queue is empty the value is discarded.  Otherwise, on a
decoded value, push it onto the head entry's buffer; resolve (pop) the head
exactly when `response_count > buffer.len()` fails to hold, with the
accumulated buffer.  On a stream error, pop the head and resolve it with
that error.  Returns the new state and the resolution event, if any. -/
def send_result {α : Type} (st : PipelineSinkState α) (result : Except RErr α) :
    PipelineSinkState α × Option (Resolution α) :=
  match st.in_flight with
  | [] => (st, none)
  | entry :: rest =>
    match result with
    | .ok item =>
      let buffer := entry.buffer ++ [item]
      if entry.response_count > buffer.length then
        ({ st with in_flight := { entry with buffer := buffer } :: rest }, none)
      else
        ({ st with in_flight := rest }, some ⟨entry.output, .ok buffer⟩)
    | .error err =>
      ({ st with in_flight := rest }, some ⟨entry.output, .error err⟩)

/-- The loop of `PipelineSink::poll_read` applied to a finite burst of
stream items: each item is handed to `send_result` in order; the emitted
resolutions are collected in order. -/
def poll_read_items {α : Type} (st : PipelineSinkState α) :
    List (Except RErr α) → PipelineSinkState α × List (Resolution α)
  | [] => (st, [])
  | item :: rest =>
    let step := send_result st item
    let next := poll_read_items step.1 rest
    (next.1, step.2.toList ++ next.2)

/-- `PipelineSink::start_send`: accept one `PipelineMessage` (slot id
`output`, `response_count`) whose write to the underlying sink has outcome
`writeResult`.  If `poll_ready` stored an error, the slot is resolved with
it and `Err(())` is returned (third component `false`).  Otherwise, on
write success a fresh in-flight entry is pushed on the tail and `Ok(())`
is returned (`true`); on write failure the slot is resolved with the error
and `Err(())` is returned. -/
def start_send {α : Type} (st : PipelineSinkState α) (writeResult : Except RErr Unit)
    (output : Nat) (response_count : Nat) :
    PipelineSinkState α × Option (Resolution α) × Bool :=
  match st.error with
  | some err => ({ st with error := none }, some ⟨output, .error err⟩, false)
  | none =>
    match writeResult with
    | .ok _ =>
      ({ st with in_flight := st.in_flight ++ [⟨output, response_count, []⟩] }, none, true)
    | .error err => (st, some ⟨output, .error err⟩, false)

/-- The write half of the driver `receiver.map(Ok).forward(sink)`: mailbox
messages `(slot id, response_count, write outcome)` are fed to `start_send`
one at a time; when `start_send` returns `Err(())` the `forward` combinator
stops, so the remaining messages are returned unprocessed (their slots are
eventually dropped).  Returns the final state, the resolutions emitted, and
the unprocessed suffix of the mailbox. -/
def forward_writes {α : Type} (st : PipelineSinkState α) :
    List (Nat × Nat × Except RErr Unit) →
    PipelineSinkState α × List (Resolution α) × List (Nat × Nat × Except RErr Unit)
  | [] => (st, [], [])
  | (o, rc, w) :: msgs =>
    let step := start_send st w o rc
    if step.2.2 then
      let next := forward_writes step.1 msgs
      (next.1, step.2.1.toList ++ next.2.1, next.2.2)
    else
      (step.1, step.2.1.toList, msgs)

/-- The result observed by `Pipeline::send_recv_multiple`: `mailboxOk`
tells whether the `mpsc` send succeeded (`map_err(|_| None)` otherwise);
`slot` is the final content of the caller's completion slot, `none` when
the sender was dropped unresolved (mapped to `Err(None)`). -/
def send_recv_multiple_result {α : Type} (mailboxOk : Bool)
    (slot : Option (Except RErr (List α))) : Except (Option RErr) (List α) :=
  if mailboxOk then
    match slot with
    | some (.ok l) => .ok l
    | some (.error e) => .error (some e)
    | none => .error none
  else .error none

/-- `Pipeline::send`: `send_recv_multiple` with `response_count = 1`
followed by `item.pop().unwrap()` on the resulting list.  `pop` removes the
last element; the `unwrap` panic on an empty list is modelled by `none`. -/
def pipeline_send {α : Type} (mailboxOk : Bool)
    (slot : Option (Except RErr (List α))) : Option (Except (Option RErr) α) :=
  match send_recv_multiple_result mailboxOk slot with
  | .ok l => (l.getLast?).map Except.ok
  | .error e => some (.error e)

/-- `err.unwrap_or_else(|| RedisError::from(io::Error::from(BrokenPipe)))`
used by both `MultiplexedConnection` methods: a dropped slot (`None`)
becomes the synthesized broken-pipe error. -/
def unwrap_or_broken_pipe : Option RErr → RErr
  | some e => e
  | none => .brokenPipe

/-- `<MultiplexedConnection as ConnectionLike>::req_packed_command`:
`pipeline.send` with the dropped-slot case turned into the broken-pipe
error.  `none` models the unreachable `pop().unwrap()` panic. -/
def mux_req_packed_command {α : Type} (mailboxOk : Bool)
    (slot : Option (Except RErr (List α))) : Option (Except RErr α) :=
  (pipeline_send mailboxOk slot).map fun r =>
    match r with
    | .ok v => .ok v
    | .error e => .error (unwrap_or_broken_pipe e)

/-- `<MultiplexedConnection as ConnectionLike>::req_packed_commands`:
`send_recv_multiple` with `offset + count` expected responses, the
dropped-slot case turned into broken-pipe, then `value.drain(..offset)`
(keep everything after the first `offset` values). -/
def mux_req_packed_commands {α : Type} (mailboxOk : Bool)
    (slot : Option (Except RErr (List α))) (offset : Nat) : Except RErr (List α) :=
  match send_recv_multiple_result mailboxOk slot with
  | .ok l => .ok (l.drop offset)
  | .error e => .error (unwrap_or_broken_pipe e)

/-! ### Sequential connection and the pub/sub exit protocol -/

/-- A decoded redis `Value`, as far as this development needs to see into
it: either a value convertible by `from_redis_value` into the 3-tuple
`(Vec<u8>, (), isize)` shape of unsubscribe acknowledgements (its tag bytes
and the remaining-subscription count), or any other value. -/
inductive RVal where
  | unsub : List Nat → Int → RVal
  | plain : Nat → RVal
deriving DecidableEq, Repr

/-- The parsed form of one unsubscribe acknowledgement: tag bytes and
the total remaining-subscription count (`res.0` and `res.2`;
`res.1`, the removed channel name, is ignored by the source). -/
structure UnsubResp where
  tag : List Nat
  count : Int
deriving DecidableEq, Repr

/-- `from_redis_value::<(Vec<u8>, (), isize)>`: succeeds exactly on values
of the acknowledgement shape, fails with a conversion error otherwise. -/
def from_redis_value_triple : RVal → Except RErr UnsubResp
  | .unsub t c => .ok ⟨t, c⟩
  | .plain _ => .error .parseError

/-- The `match res.0.first()` flag update of `clear_active_subscriptions`:
byte `117` (letter u) sets `received_unsub`, byte `112` (letter p) sets
`received_punsub`, anything else (or an empty tag) changes nothing. -/
def updateFlags (ru rp : Bool) (r : UnsubResp) : Bool × Bool :=
  match r.tag.head? with
  | some b => if b = 117 then (true, rp) else if b = 112 then (ru, true) else (ru, rp)
  | none => (ru, rp)

/-- `updateFlags` folded over a list of responses. -/
def flags_after (ru rp : Bool) : List UnsubResp → Bool × Bool
  | [] => (ru, rp)
  | r :: rest =>
    let f := updateFlags ru rp r
    flags_after f.1 f.2 rest

/-- Outcome of the receive loop of `clear_active_subscriptions`:
`done rest` when the loop breaks successfully leaving `rest` unread,
`failed e` when a read or conversion step returned an error, `reading`
when the supplied responses ran out and the loop is still waiting. -/
inductive LoopOutcome (β : Type) where
  | done : β → LoopOutcome β
  | failed : RErr → LoopOutcome β
  | reading : LoopOutcome β
deriving Repr

/-- The receive loop of `clear_active_subscriptions`: read one response at
a time (each read has outcome `Except RErr RVal`), convert it with
`from_redis_value_triple` (`?` on failure), update the two flags from the
first tag byte, and break exactly when `received_unsub && received_punsub
&& res.2 == 0`. -/
def clear_recv_loop (ru rp : Bool) :
    List (Except RErr RVal) → LoopOutcome (List (Except RErr RVal))
  | [] => .reading
  | (.error e) :: _ => .failed e
  | (.ok v) :: rest =>
    match from_redis_value_triple v with
    | .error e => .failed e
    | .ok r =>
      let f := updateFlags ru rp r
      if f.1 && f.2 && (r.count == 0) then .done rest
      else clear_recv_loop f.1 f.2 rest

/-- The transport as seen by the sequential connection: the outcomes of
successive writes (`send_bytes` / command writes, consumed in order) and of
successive reads (`read_response`, each possibly failing, and the decoded
value otherwise). -/
structure ConnIo where
  writes : List (Except RErr Unit)
  reads : List (Except RErr RVal)
deriving Repr

/-- `Connection::clear_active_subscriptions`: write `UNSUBSCRIBE`, then
`PUNSUBSCRIBE` (each `?` on failure, so the second write is not attempted
when the first fails), then run the receive loop with both flags false.
`none` models the cases where the finite transport model does not resolve
the call (the loop would still be waiting on the wire). -/
def clear_active_subscriptions (io : ConnIo) : Option (Except RErr ConnIo) :=
  match io.writes with
  | [] => none
  | (.error e) :: _ => some (.error e)
  | (.ok _) :: rest1 =>
    match rest1 with
    | [] => none
    | (.error e) :: _ => some (.error e)
    | (.ok _) :: ws =>
      match clear_recv_loop false false io.reads with
      | .done rest => some (.ok ⟨ws, rest⟩)
      | .failed e => some (.error e)
      | .reading => none

/-- `struct Connection`: the pub/sub flag plus the transport model.  The
cached database index plays no role in the claims and is omitted. -/
structure ConnModel where
  pubsub : Bool
  io : ConnIo
deriving Repr

/-- `Connection::exit_pubsub`: run `clear_active_subscriptions`; on success
clear the `pubsub` flag, on failure raise it; return the result either
way. -/
def exit_pubsub (c : ConnModel) : Option (Except RErr Unit × ConnModel) :=
  match clear_active_subscriptions c.io with
  | none => none
  | some (.ok io2) => some (.ok (), ⟨false, io2⟩)
  | some (.error e) => some (.error e, ⟨true, c.io⟩)

/-- `PubSub::into_connection`: `self.0.exit_pubsub().await.ok(); self.0` —
the exit result is discarded and the inner connection returned. -/
def into_connection (c : ConnModel) : Option ConnModel :=
  (exit_pubsub c).map fun p => p.2

/-- `<Connection as ConnectionLike>::req_packed_command`: if the `pubsub`
flag is raised, run `exit_pubsub` first and propagate its error (`?`);
then write the command (one write outcome covers
`write_command_async` + `flush`) and read a single response. -/
def seq_req_packed_command (c : ConnModel) : Option (Except RErr RVal × ConnModel) :=
  match (if c.pubsub then exit_pubsub c else some (.ok (), c)) with
  | none => none
  | some (.error e, c2) => some (.error e, c2)
  | some (.ok _, c2) =>
    match c2.io.writes with
    | [] => none
    | (.error e) :: ws => some (.error e, ⟨c2.pubsub, ⟨ws, c2.io.reads⟩⟩)
    | (.ok _) :: ws =>
      match c2.io.reads with
      | [] => none
      | (.error e) :: rs => some (.error e, ⟨c2.pubsub, ⟨ws, rs⟩⟩)
      | (.ok v) :: rs => some (.ok v, ⟨c2.pubsub, ⟨ws, rs⟩⟩)

/-- Read `n` responses in order (the `for _ in 0..n` loops of
`req_packed_commands`), with `?` on each read: returns the decoded values
(or the first error) together with the remaining read stream; `none` when
the finite model ran out of read outcomes. -/
def read_responses : Nat → List (Except RErr RVal) →
    Option (Except RErr (List RVal) × List (Except RErr RVal))
  | 0, rs => some (.ok [], rs)
  | _ + 1, [] => none
  | _ + 1, (.error e) :: rs => some (.error e, rs)
  | n + 1, (.ok v) :: rs =>
    (read_responses n rs).map fun p =>
      match p.1 with
      | .ok vs => (.ok (v :: vs), p.2)
      | .error e => (.error e, p.2)

/-- `<Connection as ConnectionLike>::req_packed_commands`: exit pub/sub
mode first if the flag is raised; write the pipelined batch (one write
outcome covers `write_pipeline_async` + `flush`); read and discard `offset`
responses; then read `count` responses and return them. -/
def seq_req_packed_commands (c : ConnModel) (offset count : Nat) :
    Option (Except RErr (List RVal) × ConnModel) :=
  match (if c.pubsub then exit_pubsub c else some (.ok (), c)) with
  | none => none
  | some (.error e, c2) => some (.error e, c2)
  | some (.ok _, c2) =>
    match c2.io.writes with
    | [] => none
    | (.error e) :: ws => some (.error e, ⟨c2.pubsub, ⟨ws, c2.io.reads⟩⟩)
    | (.ok _) :: ws =>
      match read_responses offset c2.io.reads with
      | none => none
      | some (.error e, rs) => some (.error e, ⟨c2.pubsub, ⟨ws, rs⟩⟩)
      | some (.ok _, rs) =>
        match read_responses count rs with
        | none => none
        | some (.error e, rs2) => some (.error e, ⟨c2.pubsub, ⟨ws, rs2⟩⟩)
        | some (.ok vs, rs2) => some (.ok vs, ⟨c2.pubsub, ⟨ws, rs2⟩⟩)

/-- The all-ok read stream carrying the acknowledgements `rs`. -/
def okStream (rs : List UnsubResp) : List (Except RErr RVal) :=
  rs.map fun r => .ok (.unsub r.tag r.count)

/-! ### Helper lemmas: the engine's read phase -/

theorem send_result_ok_keep {α : Type} (s rc : Nat) (buf : List α) (v : α)
    (rest : List (InFlight α)) (err : Option RErr) (h : buf.length + 1 < rc) :
    send_result ⟨⟨s, rc, buf⟩ :: rest, err⟩ (.ok v) =
      (⟨⟨s, rc, buf ++ [v]⟩ :: rest, err⟩, none) := by
  simp only [send_result, List.length_append, List.length_singleton]
  rw [if_pos (by omega)]

theorem send_result_ok_pop {α : Type} (s rc : Nat) (buf : List α) (v : α)
    (rest : List (InFlight α)) (err : Option RErr) (h : rc ≤ buf.length + 1) :
    send_result ⟨⟨s, rc, buf⟩ :: rest, err⟩ (.ok v) =
      (⟨rest, err⟩, some ⟨s, .ok (buf ++ [v])⟩) := by
  simp only [send_result, List.length_append, List.length_singleton]
  rw [if_neg (by omega)]

theorem poll_read_items_fill {α : Type} (s rc : Nat) :
    ∀ (vs buf : List α) (rest : List (InFlight α)) (err : Option RErr),
      buf.length + vs.length = rc → vs ≠ [] →
      poll_read_items ⟨⟨s, rc, buf⟩ :: rest, err⟩ (vs.map .ok) =
        (⟨rest, err⟩, [⟨s, .ok (buf ++ vs)⟩])
  | [], _, _, _, _, hv => absurd rfl hv
  | [v], buf, rest, err, h, _ => by
    simp only [List.map, poll_read_items]
    rw [send_result_ok_pop s rc buf v rest err (by simp at h; omega)]
    simp [poll_read_items]
  | v :: w :: vs, buf, rest, err, h, _ => by
    have hstep := send_result_ok_keep s rc buf v rest err (by simp at h; omega)
    have ih := poll_read_items_fill s rc (w :: vs) (buf ++ [v]) rest err
      (by simp at h ⊢; omega) (by simp)
    simp only [List.map_cons] at ih ⊢
    rw [poll_read_items, hstep]
    simp only [ih]
    simp [List.append_assoc]

theorem poll_read_items_under {α : Type} (s rc : Nat) :
    ∀ (vs buf : List α) (rest : List (InFlight α)) (err : Option RErr),
      buf.length + vs.length < rc →
      poll_read_items ⟨⟨s, rc, buf⟩ :: rest, err⟩ (vs.map .ok) =
        (⟨⟨s, rc, buf ++ vs⟩ :: rest, err⟩, [])
  | [], buf, rest, err, _ => by simp [poll_read_items]
  | v :: vs, buf, rest, err, h => by
    simp only [List.map, poll_read_items]
    rw [send_result_ok_keep s rc buf v rest err (by simp at h; omega)]
    rw [poll_read_items_under s rc vs (buf ++ [v]) rest err (by simp at h ⊢; omega)]
    simp

/-! ### Helper lemmas: reading a fixed number of responses -/

theorem read_responses_exact :
    ∀ (vs : List RVal) (rs : List (Except RErr RVal)),
      read_responses vs.length (vs.map .ok ++ rs) = some (.ok vs, rs)
  | [], rs => by simp [read_responses]
  | v :: vs, rs => by
    have ih := read_responses_exact vs rs
    simp [read_responses, List.append_eq, ih]

/-! ### Helper lemmas: the unsubscribe receive loop -/

theorem flags_after_cons (ru rp : Bool) (r : UnsubResp) (l : List UnsubResp) :
    flags_after ru rp (r :: l) =
      flags_after (updateFlags ru rp r).1 (updateFlags ru rp r).2 l := rfl

theorem clear_recv_loop_okStream_cons (ru rp : Bool) (r : UnsubResp) (rs : List UnsubResp) :
    clear_recv_loop ru rp (okStream (r :: rs)) =
      (if (updateFlags ru rp r).1 && (updateFlags ru rp r).2 && (r.count == 0)
       then .done (okStream rs)
       else clear_recv_loop (updateFlags ru rp r).1 (updateFlags ru rp r).2 (okStream rs)) := rfl

theorem clear_recv_loop_okStream_not_failed :
    ∀ (rs : List UnsubResp) (ru rp : Bool) (e : RErr),
      clear_recv_loop ru rp (okStream rs) ≠ .failed e
  | [], _, _, _ => by simp [okStream, clear_recv_loop]
  | r :: rs, ru, rp, e => by
    rw [clear_recv_loop_okStream_cons]
    by_cases hc : ((updateFlags ru rp r).1 && (updateFlags ru rp r).2 && (r.count == 0)) = true
    · simp [hc]
    · simp only [Bool.not_eq_true] at hc
      simp only [hc, Bool.false_eq_true, if_false]
      exact clear_recv_loop_okStream_not_failed rs _ _ e

theorem clear_recv_loop_okStream_done_iff :
    ∀ (rs : List UnsubResp) (ru rp : Bool),
      (∃ rest, clear_recv_loop ru rp (okStream rs) = .done rest) ↔
      (∃ p q, rs = p ++ q ∧ p ≠ [] ∧ flags_after ru rp p = (true, true) ∧
        ∃ r, p.getLast? = some r ∧ r.count = 0)
  | [], ru, rp => by
    constructor
    · rintro ⟨rest, h⟩
      simp [okStream, clear_recv_loop] at h
    · rintro ⟨p, q, hpq, hp, -⟩
      exact absurd (List.append_eq_nil.mp hpq.symm).1 hp
  | r :: rs, ru, rp => by
    rw [clear_recv_loop_okStream_cons]
    by_cases hc : ((updateFlags ru rp r).1 && (updateFlags ru rp r).2 && (r.count == 0)) = true
    · obtain ⟨⟨ha, hb⟩, hcnt⟩ :
          ((updateFlags ru rp r).1 = true ∧ (updateFlags ru rp r).2 = true) ∧
            (r.count == 0) = true := by
        simpa [Bool.and_eq_true] using hc
      simp only [hc, if_true]
      constructor
      · intro _
        exact ⟨[r], rs, rfl, by simp, by simp [flags_after, ha, hb], r, rfl, beq_iff_eq.mp hcnt⟩
      · intro _
        exact ⟨okStream rs, rfl⟩
    · simp only [Bool.not_eq_true] at hc
      simp only [hc, Bool.false_eq_true, if_false]
      rw [clear_recv_loop_okStream_done_iff rs (updateFlags ru rp r).1 (updateFlags ru rp r).2]
      constructor
      · rintro ⟨p, q, hpq, hp, hf, x, hx, hx0⟩
        refine ⟨r :: p, q, by rw [hpq, List.cons_append], by simp,
          by rw [flags_after_cons]; exact hf, x, ?_, hx0⟩
        cases p with
        | nil => exact absurd rfl hp
        | cons a l => simpa using hx
      · rintro ⟨p, q, hpq, hp, hf, x, hx, hx0⟩
        cases p with
        | nil => exact absurd rfl hp
        | cons a l =>
          rw [List.cons_append] at hpq
          injection hpq with h1 h2
          subst h1
          subst h2
          rw [flags_after_cons] at hf
          cases l with
          | nil =>
            obtain ⟨ha, hb⟩ : (updateFlags ru rp r).1 = true ∧ (updateFlags ru rp r).2 = true := by
              simpa [flags_after, Prod.ext_iff] using hf
            simp only [List.getLast?_singleton, Option.some.injEq] at hx
            subst hx
            have hbeq := beq_iff_eq.mpr hx0
            rw [ha, hb, hbeq] at hc
            simp at hc
          | cons b l2 =>
            exact ⟨b :: l2, q, rfl, by simp, hf, x, by simpa using hx, hx0⟩

/-! ### Claim theorems -/

/-- Claim C1: while the in-flight queue is non-empty every decoded value is
appended to the head entry's buffer; the head is popped and resolved with
the accumulated list exactly when the buffer length reaches its
`response_count` (a positive integer per the data model): feeding `rc`
values resolves the head with exactly those values in arrival order while
every other queued entry is left untouched, and feeding fewer values only
buffers them without resolving anything. -/
theorem claim_C1 {α : Type} (s rc : Nat) (rest : List (InFlight α)) (err : Option RErr)
    (hrc : 0 < rc) :
    (∀ vs : List α, vs.length = rc →
      poll_read_items ⟨⟨s, rc, []⟩ :: rest, err⟩ (vs.map .ok) =
        (⟨rest, err⟩, [⟨s, .ok vs⟩]))
    ∧ (∀ vs : List α, vs.length < rc →
      poll_read_items ⟨⟨s, rc, []⟩ :: rest, err⟩ (vs.map .ok) =
        (⟨⟨s, rc, vs⟩ :: rest, err⟩, [])) := by
  constructor
  · intro vs hlen
    have hne : vs ≠ [] := by
      intro hnil
      rw [hnil] at hlen
      simp at hlen
      omega
    simpa using poll_read_items_fill s rc vs [] rest err (by simpa using hlen) hne
  · intro vs hlt
    simpa using poll_read_items_under s rc vs [] rest err (by simpa using hlt)

theorem claim_C1_witness :
    poll_read_items (α := Nat) ⟨⟨0, 2, []⟩ :: [], none⟩ ([5, 6].map .ok) =
      (⟨[], none⟩, [⟨0, .ok [5, 6]⟩])
    ∧ poll_read_items (α := Nat) ⟨⟨0, 2, []⟩ :: [], none⟩ ([5].map .ok) =
      (⟨⟨0, 2, [5]⟩ :: [], none⟩, []) :=
  ⟨(claim_C1 0 2 [] none (by decide)).1 [5, 6] rfl,
   (claim_C1 0 2 [] none (by decide)).2 [5] (by decide)⟩

/-- Claim C8: a decoded value that arrives while the in-flight queue is
empty is discarded: `send_result` leaves the whole state unchanged and
resolves no completion slot. -/
theorem claim_C8 {α : Type} (st : PipelineSinkState α) (r : Except RErr α)
    (h : st.in_flight = []) : send_result st r = (st, none) := by
  obtain ⟨fl, e⟩ := st
  simp only at h
  subst h
  rfl

theorem claim_C8_witness :
    send_result (α := Nat) ⟨[], none⟩ (.ok 3) = (⟨[], none⟩, none) :=
  claim_C8 ⟨[], none⟩ (.ok 3) rfl

/-- Claim C9: a head entry with `response_count = 0` is not resolved with
the empty list; the next decoded value is pushed first, and since
`0 > 1` fails the entry resolves with that one-element list, consuming a
response that otherwise belongs to the entry behind it (here the second
entry, expecting one response, receives the second value instead of the
first). -/
theorem claim_C9 {α : Type} (s s2 : Nat) (v w : α) (rest : List (InFlight α))
    (err : Option RErr) :
    send_result ⟨⟨s, 0, []⟩ :: rest, err⟩ (.ok v) = (⟨rest, err⟩, some ⟨s, .ok [v]⟩)
    ∧ some (Resolution.mk s (.ok [v])) ≠ some (Resolution.mk s (.ok ([] : List α)))
    ∧ poll_read_items ⟨[⟨s, 0, []⟩, ⟨s2, 1, []⟩], err⟩ [.ok v, .ok w] =
        (⟨[], err⟩, [⟨s, .ok [v]⟩, ⟨s2, .ok [w]⟩]) :=
  ⟨rfl, by simp, rfl⟩

/-- Claim C3: a stream error in the read phase resolves exactly the head
in-flight entry with that specific error and leaves every other queued
entry unresolved in the queue; a caller whose completion slot carried the
error receives it verbatim, while a caller whose slot is dropped
unresolved (the driver stops when the stream ends) receives the
synthesized broken-pipe error instead of the original cause. -/
theorem claim_C3 {α : Type} (e : RErr) (entry : InFlight α) (rest : List (InFlight α))
    (err : Option RErr) :
    poll_read_items ⟨entry :: rest, err⟩ [.error e] =
      (⟨rest, err⟩, [⟨entry.output, .error e⟩])
    ∧ mux_req_packed_command (α := α) true (some (.error e)) = some (.error e)
    ∧ mux_req_packed_command (α := α) true none = some (.error .brokenPipe)
    ∧ mux_req_packed_commands (α := α) true none 0 = .error .brokenPipe :=
  ⟨rfl, rfl, rfl, rfl⟩

/-- Claim C4 fails as stated: after a write failure the sink returns
`Err(())` to the `forward` combinator, which terminates the driver, so the
engine does not continue processing.  Concretely, with two mailbox
messages where the first write fails, the first slot is resolved with the
write error and nothing is pushed, but the second message is left
unprocessed instead of being written. -/
theorem claim_C4_counterexample :
    forward_writes (α := Nat) ⟨[], none⟩ [(0, 1, .error (.ioError 7)), (1, 1, .ok ())] =
      (⟨[], none⟩, [⟨0, .error (.ioError 7)⟩], [(1, 1, .ok ())])
    ∧ (forward_writes (α := Nat) ⟨[], none⟩
        [(0, 1, .error (.ioError 7)), (1, 1, .ok ())]).2.2 ≠ [] :=
  ⟨rfl, List.cons_ne_nil _ _⟩

/-- Claim C4 (amended): in the write phase, when writing a dequeued
request fails, its completion slot is resolved immediately with the write
error and the entry is not pushed onto the in-flight queue, but the engine
does not continue: `start_send` returns `Err(())`, the `forward` driver
stops, and the remaining mailbox messages are left unprocessed.  On write
success a fresh entry (`response_count`, empty buffer) is pushed onto the
tail of the queue and processing continues. -/
theorem claim_C4 {α : Type} (st : PipelineSinkState α) (o rc : Nat) (e : RErr)
    (msgs : List (Nat × Nat × Except RErr Unit)) (herr : st.error = none) :
    forward_writes st ((o, rc, .error e) :: msgs) = (st, [⟨o, .error e⟩], msgs)
    ∧ start_send st (.ok ()) o rc =
        ({ st with in_flight := st.in_flight ++ [⟨o, rc, []⟩] }, none, true) := by
  obtain ⟨fl, serr⟩ := st
  simp only at herr
  subst herr
  exact ⟨rfl, rfl⟩

theorem claim_C4_witness :
    forward_writes (α := Nat) ⟨[], none⟩ [(2, 1, .error (.ioError 3))] =
      (⟨[], none⟩, [⟨2, .error (.ioError 3)⟩], [])
    ∧ start_send (α := Nat) ⟨[], none⟩ (.ok ()) 4 2 = (⟨[⟨4, 2, []⟩], none⟩, none, true) :=
  ⟨(claim_C4 ⟨[], none⟩ 2 1 (.ioError 3) [] rfl).1,
   (claim_C4 ⟨[], none⟩ 4 2 (.ioError 3) [] rfl).2⟩

/-- Claim C7: the handle's single-value `send` is `send_recv_multiple`
with `response_count = 1` followed by unwrapping the singleton list: under
the engine invariant that a successfully resolved count-1 slot carries a
one-element list (last conjunct: a count-1 head entry resolves with
exactly `[v]`), `send` produces the same error as the batched send in
every error case and the unwrapped element of the singleton in every
success case. -/
theorem claim_C7 {α : Type} (b : Bool) (slot : Option (Except RErr (List α)))
    (hvalid : ∀ l, slot = some (.ok l) → ∃ v, l = [v]) :
    (∀ e, send_recv_multiple_result b slot = .error e →
      pipeline_send b slot = some (.error e))
    ∧ (∀ v, send_recv_multiple_result b slot = .ok [v] →
      pipeline_send b slot = some (.ok v))
    ∧ (∀ l, send_recv_multiple_result b slot = .ok l →
      ∃ v, l = [v] ∧ pipeline_send b slot = some (.ok v))
    ∧ (∀ (s : Nat) (v : α) (rest : List (InFlight α)) (err : Option RErr),
      send_result ⟨⟨s, 1, []⟩ :: rest, err⟩ (.ok v) =
        (⟨rest, err⟩, some ⟨s, .ok [v]⟩)) := by
  refine ⟨?_, ?_, ?_, fun s v rest err => rfl⟩
  · intro e he
    rw [pipeline_send, he]
  · intro v hv
    rw [pipeline_send, hv]
    rfl
  · intro l hl
    obtain ⟨v, rfl⟩ : ∃ v, l = [v] := by
      cases b with
      | false => simp [send_recv_multiple_result] at hl
      | true =>
        rcases slot with - | sv
        · simp [send_recv_multiple_result] at hl
        · rcases sv with se | sl
          · simp [send_recv_multiple_result] at hl
          · simp [send_recv_multiple_result] at hl
            rw [← hl]
            exact hvalid sl rfl
    refine ⟨v, rfl, ?_⟩
    rw [pipeline_send, hl]
    rfl

theorem claim_C7_witness :
    pipeline_send (α := Nat) true (some (.ok [42])) = some (.ok 42)
    ∧ pipeline_send (α := Nat) true none = some (.error none)
    ∧ send_result (α := Nat) ⟨⟨0, 1, []⟩ :: [], none⟩ (.ok 42) =
        (⟨[], none⟩, some ⟨0, .ok [42]⟩) := by
  have hv : ∀ l : List Nat, (some (.ok [42]) : Option (Except RErr (List Nat))) =
      some (.ok l) → ∃ v, l = [v] := by
    intro l h
    simp only [Option.some.injEq, Except.ok.injEq] at h
    exact ⟨42, h.symm⟩
  have hv2 : ∀ l : List Nat, (none : Option (Except RErr (List Nat))) =
      some (.ok l) → ∃ v, l = [v] := by
    intro l h
    simp at h
  exact ⟨(claim_C7 true (some (.ok [42])) hv).2.1 42 rfl,
    (claim_C7 true none hv2).1 none rfl,
    (claim_C7 true (some (.ok [42])) hv).2.2.2 0 42 [] none⟩

/-- Claim C2: the pub/sub exit read loop reads responses one at a time,
sets `seen_unsub`/`seen_punsub` from the first tag byte only (last
conjunct: responses with equal first tag bytes update the flags
identically), never fails on a well-formed acknowledgement stream, and
terminates successfully exactly when some prefix of the responses makes
both flags true with its most recently read `remaining_count` equal to
zero; for every sequence with no such prefix it keeps reading. -/
theorem claim_C2 (rs : List UnsubResp) :
    ((∃ rest, clear_recv_loop false false (okStream rs) = .done rest) ↔
      (∃ p q, rs = p ++ q ∧ p ≠ [] ∧ flags_after false false p = (true, true) ∧
        ∃ r, p.getLast? = some r ∧ r.count = 0))
    ∧ (∀ e, clear_recv_loop false false (okStream rs) ≠ .failed e)
    ∧ (∀ (ru rp : Bool) (a b : UnsubResp), a.tag.head? = b.tag.head? →
      updateFlags ru rp a = updateFlags ru rp b) := by
  refine ⟨clear_recv_loop_okStream_done_iff rs false false,
    fun e => clear_recv_loop_okStream_not_failed rs false false e, ?_⟩
  intro ru rp a b h
  simp [updateFlags, h]

theorem claim_C2_witness :
    clear_recv_loop false false (okStream [⟨[117], 1⟩, ⟨[112], 0⟩]) = .done []
    ∧ clear_recv_loop false false (okStream [⟨[117], 1⟩]) ≠ .failed .parseError
    ∧ updateFlags false false ⟨[117, 55], 4⟩ = updateFlags false false ⟨[117], 9⟩ :=
  ⟨rfl, (claim_C2 [⟨[117], 1⟩]).2.1 .parseError,
   (claim_C2 []).2.2 false false ⟨[117, 55], 4⟩ ⟨[117], 9⟩ rfl⟩

/-! Shared helpers for the pub/sub exit claims. -/

theorem exit_pubsub_ok (c : ConnModel) (io2 : ConnIo)
    (h : clear_active_subscriptions c.io = some (.ok io2)) :
    exit_pubsub c = some (.ok (), ⟨false, io2⟩) := by
  simp [exit_pubsub, h]

theorem exit_pubsub_error (c : ConnModel) (e : RErr)
    (h : clear_active_subscriptions c.io = some (.error e)) :
    exit_pubsub c = some (.error e, ⟨true, c.io⟩) := by
  simp [exit_pubsub, h]

theorem seq_req_packed_command_exit_error (c : ConnModel) (e : RErr)
    (hps : c.pubsub = true) (h : clear_active_subscriptions c.io = some (.error e)) :
    seq_req_packed_command c = some (.error e, ⟨true, c.io⟩) := by
  simp [seq_req_packed_command, hps, exit_pubsub, h]

theorem seq_req_packed_commands_exit_error (c : ConnModel) (e : RErr) (offset count : Nat)
    (hps : c.pubsub = true) (h : clear_active_subscriptions c.io = some (.error e)) :
    seq_req_packed_commands c offset count = some (.error e, ⟨true, c.io⟩) := by
  simp [seq_req_packed_commands, hps, exit_pubsub, h]

/-- Claim C5: `exit_pubsub` clears the `pubsub` flag exactly when the exit
sequence succeeds and raises it on any read/protocol failure; while the
flag is raised, both the single and the pipelined dispatch run the full
exit sequence first, fail with the exit error if it fails (leaving the
flag raised), and proceed normally with the flag cleared if it succeeds. -/
theorem claim_C5 (c : ConnModel) :
    (∀ io2, clear_active_subscriptions c.io = some (.ok io2) →
      exit_pubsub c = some (.ok (), ⟨false, io2⟩))
    ∧ (∀ e, clear_active_subscriptions c.io = some (.error e) →
      exit_pubsub c = some (.error e, ⟨true, c.io⟩))
    ∧ (∀ e, c.pubsub = true → clear_active_subscriptions c.io = some (.error e) →
      seq_req_packed_command c = some (.error e, ⟨true, c.io⟩))
    ∧ (∀ e offset count, c.pubsub = true →
      clear_active_subscriptions c.io = some (.error e) →
      seq_req_packed_commands c offset count = some (.error e, ⟨true, c.io⟩))
    ∧ (∀ ws rs v, c.pubsub = true →
      clear_active_subscriptions c.io = some (.ok ⟨(.ok ()) :: ws, (.ok v) :: rs⟩) →
      seq_req_packed_command c = some (.ok v, ⟨false, ws, rs⟩)) := by
  refine ⟨fun io2 h => exit_pubsub_ok c io2 h,
    fun e h => exit_pubsub_error c e h,
    fun e hps h => seq_req_packed_command_exit_error c e hps h,
    fun e offset count hps h => seq_req_packed_commands_exit_error c e offset count hps h,
    ?_⟩
  intro ws rs v hps h
  simp [seq_req_packed_command, hps, exit_pubsub, h]

theorem claim_C5_witness :
    exit_pubsub ⟨true, ⟨[.error (.ioError 3)], []⟩⟩ =
      some (.error (.ioError 3), ⟨true, ⟨[.error (.ioError 3)], []⟩⟩)
    ∧ seq_req_packed_command ⟨true, ⟨[.error (.ioError 3)], []⟩⟩ =
      some (.error (.ioError 3), ⟨true, ⟨[.error (.ioError 3)], []⟩⟩)
    ∧ seq_req_packed_commands ⟨true, ⟨[.error (.ioError 3)], []⟩⟩ 1 2 =
      some (.error (.ioError 3), ⟨true, ⟨[.error (.ioError 3)], []⟩⟩)
    ∧ seq_req_packed_command ⟨true, ⟨[.ok (), .ok (), .ok ()],
        okStream [⟨[117], 1⟩, ⟨[112], 0⟩] ++ [.ok (.plain 9)]⟩⟩ =
      some (.ok (.plain 9), ⟨false, [], []⟩) :=
  by exact ⟨(claim_C5 ⟨true, ⟨[.error (.ioError 3)], []⟩⟩).2.1 (.ioError 3) rfl,
    (claim_C5 ⟨true, ⟨[.error (.ioError 3)], []⟩⟩).2.2.1 (.ioError 3) rfl rfl,
    (claim_C5 ⟨true, ⟨[.error (.ioError 3)], []⟩⟩).2.2.2.1 (.ioError 3) 1 2 rfl rfl,
    (claim_C5 _).2.2.2.2 [] [] (.plain 9) rfl (by rfl)⟩

/-- Claim C6: a pipelined batch dispatched with `offset` and `count` is
written once; then `offset + count` responses are read and exactly the
last `count` of them are returned in order.  First conjunct: the
sequential connection discards the first `offset` decoded responses and
returns the remaining `count`, consuming exactly `offset + count` items
of the read stream.  Second conjunct: the multiplexed connection's engine
resolves the request's slot with all `offset + count` decoded values, and
`req_packed_commands` drains the first `offset` of them. -/
theorem claim_C6 (offset count : Nat) (hpos : 0 < offset + count) :
    (∀ (vals : List RVal) (ws : List (Except RErr Unit)) (rs : List (Except RErr RVal)),
      vals.length = offset + count →
      seq_req_packed_commands ⟨false, ⟨(.ok ()) :: ws, vals.map .ok ++ rs⟩⟩ offset count =
        some (.ok (vals.drop offset), ⟨false, ws, rs⟩))
    ∧ (∀ (α : Type) (vs : List α) (s : Nat) (rest : List (InFlight α)) (err : Option RErr),
      vs.length = offset + count →
      poll_read_items ⟨⟨s, offset + count, []⟩ :: rest, err⟩ (vs.map .ok) =
        (⟨rest, err⟩, [⟨s, .ok vs⟩])
      ∧ mux_req_packed_commands true (some (.ok vs)) offset = .ok (vs.drop offset)) := by
  constructor
  · intro vals ws rs hlen
    have hsplit : vals.map (Except.ok (ε := RErr)) ++ rs =
        (vals.take offset).map .ok ++ ((vals.drop offset).map .ok ++ rs) := by
      rw [← List.append_assoc, ← List.map_append, List.take_append_drop]
    have h1 : read_responses offset (vals.map .ok ++ rs) =
        some (.ok (vals.take offset), (vals.drop offset).map .ok ++ rs) := by
      have hr := read_responses_exact (vals.take offset) ((vals.drop offset).map .ok ++ rs)
      rw [List.length_take, min_eq_left (show offset ≤ vals.length by omega)] at hr
      rw [hsplit]
      exact hr
    have h2 : read_responses count ((vals.drop offset).map .ok ++ rs) =
        some (.ok (vals.drop offset), rs) := by
      have hr := read_responses_exact (vals.drop offset) rs
      rw [List.length_drop, hlen, show offset + count - offset = count by omega] at hr
      exact hr
    rw [List.map_drop] at h2
    simp [seq_req_packed_commands, h1, h2]
  · intro α vs s rest err hlen
    have hne : vs ≠ [] := by
      intro hnil
      rw [hnil] at hlen
      simp at hlen
      omega
    have hfill := poll_read_items_fill s (offset + count) vs [] rest err
      (by simpa using hlen) hne
    exact ⟨by simpa using hfill, rfl⟩

theorem claim_C6_witness :
    seq_req_packed_commands
        ⟨false, ⟨[.ok ()], [.ok (.plain 1), .ok (.plain 2), .ok (.plain 3)]⟩⟩ 1 2 =
      some (.ok [.plain 2, .plain 3], ⟨false, [], []⟩)
    ∧ poll_read_items (α := Nat) ⟨⟨0, 3, []⟩ :: [], none⟩ ([10, 20, 30].map .ok) =
        (⟨[], none⟩, [⟨0, .ok [10, 20, 30]⟩])
    ∧ mux_req_packed_commands (α := Nat) true (some (.ok [10, 20, 30])) 1 = .ok [20, 30] := by
  have h := (claim_C6 1 2 (by decide)).1 [.plain 1, .plain 2, .plain 3] [] [] rfl
  have h2 := (claim_C6 1 2 (by decide)).2 Nat [10, 20, 30] 0 [] none rfl
  exact ⟨h, h2.1, h2.2⟩

/-- Claim C10: `PubSub::into_connection` always returns the underlying
sequential connection: the result of `exit_pubsub` is discarded (`.ok()`),
and when the exit protocol fails the returned connection carries a raised
`pubsub` flag, so the next command dispatched on it retries the exit
sequence first (and fails if that retry fails again). -/
theorem claim_C10 (c : ConnModel) :
    (∀ r c2, exit_pubsub c = some (r, c2) → into_connection c = some c2)
    ∧ (∀ io2, clear_active_subscriptions c.io = some (.ok io2) →
      into_connection c = some ⟨false, io2⟩)
    ∧ (∀ e, clear_active_subscriptions c.io = some (.error e) →
      into_connection c = some ⟨true, c.io⟩
      ∧ seq_req_packed_command ⟨true, c.io⟩ = some (.error e, ⟨true, c.io⟩)) := by
  refine ⟨?_, ?_, ?_⟩
  · intro r c2 h
    simp [into_connection, h]
  · intro io2 h
    simp [into_connection, exit_pubsub_ok c io2 h]
  · intro e h
    exact ⟨by simp [into_connection, exit_pubsub_error c e h],
      seq_req_packed_command_exit_error ⟨true, c.io⟩ e rfl h⟩

theorem claim_C10_witness :
    into_connection ⟨true, ⟨[.error (.ioError 5)], []⟩⟩ =
      some ⟨true, ⟨[.error (.ioError 5)], []⟩⟩
    ∧ into_connection ⟨true, ⟨[.ok (), .ok ()], okStream [⟨[117], 1⟩, ⟨[112], 0⟩]⟩⟩ =
      some ⟨false, ⟨[], []⟩⟩
    ∧ seq_req_packed_command ⟨true, ⟨[.error (.ioError 5)], []⟩⟩ =
      some (.error (.ioError 5), ⟨true, ⟨[.error (.ioError 5)], []⟩⟩) :=
  ⟨((claim_C10 ⟨true, ⟨[.error (.ioError 5)], []⟩⟩).2.2 (.ioError 5) rfl).1,
   (claim_C10 ⟨true, ⟨[.ok (), .ok ()], okStream [⟨[117], 1⟩, ⟨[112], 0⟩]⟩⟩).2.1
     ⟨[], []⟩ rfl,
   ((claim_C10 ⟨true, ⟨[.error (.ioError 5)], []⟩⟩).2.2 (.ioError 5) rfl).2⟩
